import Mathlib

/-!
Shallow embedding of the allocation engine of `src/scheduler.py` (class
`Scheduler`): the request partition, the tiered CSP construction
(`_create_scheduling_problem_with_strategy`), the strategy escalation loop
(`solve`), solution processing (`_process_solution`) and the greedy random
fallback (`_attempt_random_assignment_fallback`).

Modelling conventions:
* `datetime` instants: the source stores a date string and a time-of-day
  string per reservation and combines them with
  `datetime.strptime(f"{day} {time}", "%Y-%m-%d %H:%M")`, only ever using
  the resulting values through comparisons (`max .. < min ..`).  We embed
  the already-parsed values: `day : Nat` is an order-isomorphic encoding of
  the date and `start_time, end_time : Nat` are minutes of the day;
  `parse_time_slot` combines them into a single comparable instant exactly
  as chronological order does for well-formed strings.
* Python dicts keyed by reservation id are association lists
  (`List (Nat x SchedEntry)`) with insert-or-overwrite (`dinsert`) and
  key lookup (`dlookup`); iteration order never matters to the engine's
  observable content, which is always read through key lookup.
* Python truthiness of `formation_id` (an optional string): `None` and the
  empty string are falsy, every other string is truthy (`pyTruthy`).
* The CSP library (`python-constraint`) is modelled by the type
  `CSPProblem` (variables with finite domains, unary and binary
  constraints) whose full solution set `solutions` is computed by
  enumeration; the library's backtracking search is an abstract parameter
  `solver` assumed sound (whatever it returns satisfies every constraint
  and assigns every variable) and complete (it returns something whenever
  a solution exists).  `listSolver` is a concrete such solver used for
  witnesses.
* `random.shuffle` calls are abstract permutation parameters
  (`shufI` for the reservation order, `shufC` for each candidate list).
-/

/-- Embeds `_parse_time_slot`: combines an (encoded) date and minutes of the
day into one instant; order-isomorphic to `datetime` comparison. -/
def parse_time_slot (day t : Nat) : Nat := day * 1440 + t

/-- Embeds `_do_times_overlap`: half-open interval overlap test. -/
def do_times_overlap (start1 end1 start2 end2 : Nat) : Bool :=
  decide (max start1 start2 < min end1 end2)

/-- Embeds `_get_place_type` (scheduler.py lines 23-33). -/
def get_place_type : Option Nat → String
  | none => "unknown"
  | some place_id =>
    if 1 ≤ place_id ∧ place_id ≤ 24 then "pc_desk"
    else if 26 ≤ place_id ∧ place_id ≤ 45 then "lower_floor"
    else if place_id = 101 ∨ place_id = 102 ∨ place_id = 103 then "room"
    else "unknown"

/-- A reservation record as consumed by the engine (the engine also reads a
`user_id` field, used only for printing, which we omit).  `place_id` is the
requested place (`None` = flexible), `needPc` is read with
`.get('needPc', True)`. -/
structure Reservation where
  id : Nat
  place_id : Option Nat
  formation_id : Option String
  day : Nat
  start_time : Nat
  end_time : Nat
  request_status : String
  needPc : Option Bool
deriving DecidableEq

/-- The `places_config` dictionary: two desk-id lists plus three room
records, of which the engine only reads the `id` fields. -/
structure PlacesConfig where
  coworking_pc_desks : List Nat
  lower_floor_desks : List Nat
  room_1 : Nat
  room_2 : Nat
  room_3 : Nat
deriving DecidableEq

/-- The `room_ids` list built at scheduler.py lines 47 and 279. -/
def room_ids (cfg : PlacesConfig) : List Nat := [cfg.room_1, cfg.room_2, cfg.room_3]

/-- The `all_possible_places` list of the fallback (line 281). -/
def all_possible_places (cfg : PlacesConfig) : List Nat :=
  cfg.coworking_pc_desks ++ cfg.lower_floor_desks ++ room_ids cfg

/-- One value of the `scheduled_assignments` dict: assigned place (the fixed
path copies the reservation's own, possibly absent, `place_id`), parsed
interval ends and the status string. -/
structure SchedEntry where
  place_id : Option Nat
  start_time : Nat
  end_time : Nat
  status : String
deriving DecidableEq

/-- The `scheduled_assignments` dict, as an insertion-ordered association
list with unique keys. -/
abbrev AssignMap := List (Nat × SchedEntry)

/-- Dict assignment `d[k] = v`: overwrite the (unique) existing entry for
`k` in place, preserving its position as Python dicts do, or append a new
entry at the end. -/
def dinsert {α : Type} (m : List (Nat × α)) (k : Nat) (v : α) : List (Nat × α) :=
  match m with
  | [] => [(k, v)]
  | kv :: t => if kv.1 == k then (k, v) :: t else kv :: dinsert t k v

/-- Dict key lookup. -/
def dlookup {α : Type} (m : List (Nat × α)) (k : Nat) : Option α :=
  (m.find? (fun kv => kv.1 == k)).map (fun kv => kv.2)

/-- Dict key membership (`k in dict`). -/
def dcontains {α : Type} (m : List (Nat × α)) (k : Nat) : Bool :=
  m.any (fun kv => kv.1 == k)

/-- Python truthiness of the optional string `formation_id`: `None` and
`""` are falsy. -/
def pyTruthy : Option String → Bool
  | none => false
  | some s => s ≠ ""

/-- The `_reservations_by_id` dict lookup.  Building a dict by comprehension
lets a later duplicate id overwrite an earlier one, hence the fold keeping
the last match. -/
def resById (resv : List Reservation) (i : Nat) : Option Reservation :=
  resv.foldl (fun acc r => if r.id == i then some r else acc) none

/-- The partition test of scheduler.py line 60: accepted status or truthy
`formation_id` makes a reservation fixed. -/
def isFixedRes (r : Reservation) : Bool :=
  r.request_status == "accepted" || pyTruthy r.formation_id

/-- The `elif` of line 69: a reservation is collected as pending only when
the fixed branch did not fire and its status is `pending`. -/
def isPendingRes (r : Reservation) : Bool :=
  !(isFixedRes r) && (r.request_status == "pending")

/-- The entry stored for a fixed reservation (lines 63-68). -/
def fixedEntry (r : Reservation) : SchedEntry :=
  ⟨r.place_id, parse_time_slot r.day r.start_time, parse_time_slot r.day r.end_time, "accepted"⟩

/-- The fixed part of `scheduled_assignments` after the partition loop of
lines 54-71 (identical for every strategy, since lines 43-71 do not read
`strategy_level`). -/
def fixedAssignments (resv : List Reservation) : AssignMap :=
  resv.foldl (fun m r => if isFixedRes r then dinsert m r.id (fixedEntry r) else m) []

/-- The `pending_reservation_ids` list of the partition loop. -/
def pendingIds (resv : List Reservation) : List Nat :=
  (resv.filter isPendingRes).map (fun r => r.id)

/-- The `initial_pending_ids` list of `solve` (line 210): status `pending`
regardless of `formation_id`. -/
def initialPendingIds (resv : List Reservation) : List Nat :=
  (resv.filter (fun r => r.request_status == "pending")).map (fun r => r.id)

/-- Embeds the per-reservation domain computation of
`_create_scheduling_problem_with_strategy`, scheduler.py lines 77-152:
strategy-dependent candidate list (lines 82-132) followed by the
flexible-request filter of lines 137-152.  Note that in the source the
strategy-2 `unknown` branch (line 106) reads
`possible_places_for_this_res == list(lower_floor_desks) + list(coworking_pc_desks)`,
a comparison rather than an assignment, so that branch leaves the domain
empty; the embedding reproduces that. -/
def possible_places (strategy_level : Nat) (cfg : PlacesConfig) (r : Reservation) : List Nat :=
  let coworking_pc_desks := cfg.coworking_pc_desks
  let lower_floor_desks := cfg.lower_floor_desks
  let requested_place_type := get_place_type r.place_id
  let needs_pc := r.needPc.getD true
  let dom : List Nat :=
    if strategy_level == 1 then
      if needs_pc then
        if requested_place_type == "pc_desk" || requested_place_type == "unknown" then
          coworking_pc_desks
        else []
      else
        if requested_place_type == "lower_floor" || requested_place_type == "unknown" then
          match r.place_id with
          | some p => if p ∈ lower_floor_desks then [p] else []
          | none => []
        else []
    else if strategy_level == 2 then
      if needs_pc then
        if requested_place_type == "pc_desk" then coworking_pc_desks
        else if requested_place_type == "lower_floor" then lower_floor_desks
        else []
      else
        if requested_place_type == "lower_floor" || requested_place_type == "unknown" then
          lower_floor_desks ++ coworking_pc_desks
        else if requested_place_type == "pc_desk" then coworking_pc_desks
        else []
    else if strategy_level == 3 then
      if needs_pc then
        if requested_place_type == "pc_desk" then coworking_pc_desks
        else if requested_place_type == "lower_floor" then
          lower_floor_desks ++ coworking_pc_desks ++ room_ids cfg
        else if requested_place_type == "room" then room_ids cfg
        else if requested_place_type == "unknown" then
          coworking_pc_desks ++ lower_floor_desks ++ room_ids cfg
        else []
      else
        if requested_place_type == "pc_desk" then coworking_pc_desks
        else if requested_place_type == "lower_floor" || requested_place_type == "unknown" then
          lower_floor_desks ++ room_ids cfg ++ coworking_pc_desks
        else if requested_place_type == "room" then room_ids cfg
        else []
    else []
  match r.place_id with
  | none =>
    if needs_pc then
      let dom1 := dom.filter (fun p => p ∈ coworking_pc_desks)
      if strategy_level == 1 then dom1.filter (fun p => p ∈ coworking_pc_desks) else dom1
    else dom
  | some _ => dom

/-- The `places_config` instance of scheduler.py lines 398-404: desks 1-24,
lower-floor desks 26-45 and rooms 101-103. -/
def cfg0 : PlacesConfig :=
  ⟨List.range' 1 24, List.range' 26 20, 101, 102, 103⟩

/-- A built constraint problem: variables (keyed by the reservation id that
names `res_{id}_place`) with their domains, the unary fixed-conflict
constraints and the binary pairwise constraints, each with its scope. -/
structure CSPProblem where
  vars : List (Nat × List Nat)
  unary : List (Nat × (Nat → Bool))
  binary : List (Nat × Nat × (Nat → Nat → Bool))

/-- Python `assigned_place == fixed_place_id` where the fixed place may be
`None`: an int never equals `None`. -/
def eqOptNat (p : Nat) : Option Nat → Bool
  | none => false
  | some q => p == q

/-- Embeds `create_fixed_conflict_constraint` (lines 163-173): the factory
captures the pending reservation's parsed interval and the fixed entry's
data by value. -/
def fixed_conflict_constraint (resv : List Reservation) (current_res_id : Nat)
    (fixed : SchedEntry) : Nat → Bool :=
  match resById resv current_res_id with
  | none => fun _ => true
  | some r =>
    let current_start := parse_time_slot r.day r.start_time
    let current_end := parse_time_slot r.day r.end_time
    fun assigned_place =>
      !(eqOptNat assigned_place fixed.place_id &&
        do_times_overlap current_start current_end fixed.start_time fixed.end_time)

/-- Ordered pairs `(l[i], l[j])` with `i < j`, in the nested-loop order of
lines 184-187. -/
def allPairs : List Nat → List (Nat × Nat)
  | [] => []
  | x :: xs => xs.map (fun y => (x, y)) ++ allPairs xs

/-- The last two elements of a list, when it has at least two. -/
def lastTwo (l : List Nat) : Option (Nat × Nat) :=
  match l.reverse with
  | b :: a :: _ => some (a, b)
  | _ => none

/-- Embeds the pairwise-constraint loop of lines 184-199.  The lambda added
for each pair reads `res1_start_dt`, `res1_end_dt`, `res2_start_dt`,
`res2_end_dt` from the enclosing function scope; Python closures capture
those variables by reference, and the solver only calls the constraints
after both loops have finished, when the variables hold the intervals of
the last generated pair - the last two pending variables.  Hence every
pairwise constraint tests the same, shared overlap value `lateOverlap`. -/
def mkPairwise (resv : List Reservation) (vars : List (Nat × List Nat)) :
    List (Nat × Nat × (Nat → Nat → Bool)) :=
  let names := vars.map (fun v => v.1)
  let lateOverlap : Bool :=
    match lastTwo names with
    | some (a, b) =>
      (match resById resv a, resById resv b with
       | some ra, some rb =>
         do_times_overlap (parse_time_slot ra.day ra.start_time)
           (parse_time_slot ra.day ra.end_time)
           (parse_time_slot rb.day rb.start_time)
           (parse_time_slot rb.day rb.end_time)
       | _, _ => false)
    | none => false
  (allPairs names).map (fun ab =>
    (ab.1, ab.2, fun place1 place2 => !(place1 == place2 && lateOverlap)))

/-- One iteration of the pending loop of lines 74-179: look the
reservation up, skip it when its domain is empty (the `continue` of line
158), otherwise add its variable with its domain and one fixed-conflict
constraint per entry of the fixed schedule. -/
def buildPendingVar (strategy_level : Nat) (resv : List Reservation) (cfg : PlacesConfig)
    (fixed : AssignMap) (acc : List (Nat × List Nat) × List (Nat × (Nat → Bool)))
    (i : Nat) : List (Nat × List Nat) × List (Nat × (Nat → Bool)) :=
  match resById resv i with
  | none => acc
  | some r =>
    if (possible_places strategy_level cfg r).isEmpty then acc
    else
      (acc.1 ++ [(i, possible_places strategy_level cfg r)],
       acc.2 ++ fixed.map (fun kv => (i, fixed_conflict_constraint resv i kv.2)))

/-- The variables and unary constraints accumulated by the pending loop of
lines 74-179, in input order. -/
def createAcc (strategy_level : Nat) (resv : List Reservation) (cfg : PlacesConfig) :
    List (Nat × List Nat) × List (Nat × (Nat → Bool)) :=
  (pendingIds resv).foldl
    (buildPendingVar strategy_level resv cfg (fixedAssignments resv)) ([], [])

/-- Embeds `_create_scheduling_problem_with_strategy` (lines 35-206):
partition (via `fixedAssignments`/`pendingIds`), per-pending variable and
domain construction, fixed-conflict constraints against every fixed entry,
the pairwise constraints, and the final check of lines 201-203 returning
`None` when some pending reservation got no variable. -/
def create_scheduling_problem_with_strategy (strategy_level : Nat)
    (resv : List Reservation) (cfg : PlacesConfig) : Option CSPProblem :=
  if (pendingIds resv).any
      (fun i => !((createAcc strategy_level resv cfg).1.any (fun v => v.1 == i))) then none
  else
    some ⟨(createAcc strategy_level resv cfg).1, (createAcc strategy_level resv cfg).2,
      mkPairwise resv (createAcc strategy_level resv cfg).1⟩

/-- A candidate total assignment: one value per problem variable, in
variable order. -/
abbrev Sol := List (Nat × Nat)

/-- All total assignments over the given variable domains. -/
def assignProducts : List (Nat × List Nat) → List Sol
  | [] => [[]]
  | (v, dom) :: rest =>
    dom.flatMap (fun x => (assignProducts rest).map (fun s => (v, x) :: s))

/-- Value of a variable in a candidate assignment. -/
def solLookup (s : Sol) (v : Nat) : Option Nat :=
  (s.find? (fun kv => kv.1 == v)).map (fun kv => kv.2)

/-- Whether an assignment satisfies every constraint of the problem. -/
def constraintsHold (p : CSPProblem) (s : Sol) : Bool :=
  (p.unary.all (fun c =>
    match solLookup s c.1 with
    | some x => c.2 x
    | none => true)) &&
  (p.binary.all (fun c =>
    match solLookup s c.1, solLookup s c.2.1 with
    | some x, some y => c.2.2 x y
    | _, _ => true))

/-- The full solution set of a problem, by enumeration. -/
def solutions (p : CSPProblem) : List Sol :=
  (assignProducts p.vars).filter (constraintsHold p)

/-- Soundness of an abstract backtracking solver: anything returned is a
solution (total, in-domain, satisfying every constraint). -/
def SolverSound (solver : CSPProblem → Option Sol) : Prop :=
  ∀ p s, solver p = some s → s ∈ solutions p

/-- Completeness of an abstract backtracking solver: it returns something
whenever a solution exists. -/
def SolverComplete (solver : CSPProblem → Option Sol) : Prop :=
  ∀ p, solutions p ≠ [] → (solver p).isSome

/-- A concrete sound and complete solver: first solution of the
enumeration. -/
def listSolver (p : CSPProblem) : Option Sol := (solutions p).head?

/-- Embeds `_process_solution` (lines 251-262): each solved variable is
written into `scheduled_assignments` with the reservation's parsed interval
and status `accepted`. -/
def process_solution (resv : List Reservation) (m : AssignMap) (sol : Sol) : AssignMap :=
  sol.foldl (fun m kv =>
    match resById resv kv.1 with
    | none => m
    | some r =>
      dinsert m kv.1
        ⟨some kv.2, parse_time_slot r.day r.start_time, parse_time_slot r.day r.end_time,
          "accepted"⟩) m

/-- One strategy attempt of `solve` (lines 213-244): build the problem, run
the solver for a first solution, and process it.  The Python test
`if found_solution:` treats the empty solution dict as false, so an empty
solution is handled like no solution (the timeout re-check of lines 232-235
only prints and never changes `found_solution`). -/
def tryStrategy (solver : CSPProblem → Option Sol) (resv : List Reservation)
    (cfg : PlacesConfig) (strategy_level : Nat) : Option AssignMap :=
  match create_scheduling_problem_with_strategy strategy_level resv cfg with
  | none => none
  | some p =>
    match solver p with
    | none => none
    | some sol =>
      if sol.isEmpty then none
      else some (process_solution resv (fixedAssignments resv) sol)

/-- Embeds `list(dict.fromkeys(candidate_places))` (line 330): remove
duplicates keeping the first occurrence of each element. -/
def pyDedup (l : List Nat) : List Nat :=
  l.foldl (fun acc p => if p ∈ acc then acc else acc ++ [p]) []

/-- Embeds the fallback candidate computation, lines 289-330: the
`needs_pc` preference block, the hard collapse to the requested place when
one is set, the flexible-request refinements, and the order-preserving
dedup of `dict.fromkeys`. -/
def fallbackCandidates (cfg : PlacesConfig) (r : Reservation) : List Nat :=
  let coworking_pc_desks := cfg.coworking_pc_desks
  let lower_floor_desks := cfg.lower_floor_desks
  let needs_pc := r.needPc.getD true
  let requested_place_type := get_place_type r.place_id
  let cand : List Nat :=
    if needs_pc then
      if requested_place_type == "lower_floor" && r.place_id.isSome then [r.place_id.getD 0]
      else if requested_place_type == "room" && r.place_id.isSome then [r.place_id.getD 0]
      else coworking_pc_desks
    else
      if requested_place_type == "pc_desk" && r.place_id.isSome then [r.place_id.getD 0]
      else lower_floor_desks ++ room_ids cfg ++ coworking_pc_desks
  let cand : List Nat :=
    match r.place_id with
    | some p => [p]
    | none =>
      if needs_pc then
        let c := cand.filter (fun p => p ∈ coworking_pc_desks)
        if c.isEmpty then (all_possible_places cfg).filter (fun p => p ∈ coworking_pc_desks)
        else c
      else
        let c := cand.filter (fun p => p ∈ lower_floor_desks || p ∈ room_ids cfg)
        if c.isEmpty then
          (all_possible_places cfg).filter
            (fun p => p ∈ lower_floor_desks || p ∈ room_ids cfg || p ∈ coworking_pc_desks)
        else c
  pyDedup cand

/-- Availability scan of lines 336-342: a candidate place is free when no
already scheduled entry uses the same place with an overlapping time. -/
def placeAvailable (sched : AssignMap) (p s e : Nat) : Bool :=
  sched.all (fun kv =>
    !(eqOptNat p kv.2.place_id && do_times_overlap s e kv.2.start_time kv.2.end_time))

/-- One iteration of the fallback loop (lines 283-359) for reservation `i`:
build and shuffle the candidate list, linearly scan for the first free
place and assign it; when none is free the source only prints a message,
leaving the schedule - and in particular the reservation's absence from
it - unchanged (the insertion at line 359 is commented out). -/
def fallbackStep (resv : List Reservation) (cfg : PlacesConfig)
    (shufC : Nat → List Nat → List Nat) (sched : AssignMap) (i : Nat) : AssignMap :=
  match resById resv i with
  | none => sched
  | some r =>
    match (shufC i (fallbackCandidates cfg r)).find? (fun p =>
        placeAvailable sched p (parse_time_slot r.day r.start_time)
          (parse_time_slot r.day r.end_time)) with
    | some p =>
      dinsert sched i
        ⟨some p, parse_time_slot r.day r.start_time, parse_time_slot r.day r.end_time,
          "scheduled_random_fallback"⟩
    | none => sched

/-- The fallback loop over the (already shuffled) unscheduled ids. -/
def fallbackFold (resv : List Reservation) (cfg : PlacesConfig)
    (shufC : Nat → List Nat → List Nat) (order : List Nat) (sched : AssignMap) : AssignMap :=
  order.foldl (fallbackStep resv cfg shufC) sched

/-- Embeds `_attempt_random_assignment_fallback` (lines 264-362): start from
the current schedule, keep the initially-pending ids not already scheduled,
shuffle them and run the greedy loop. -/
def attempt_random_assignment_fallback (resv : List Reservation) (cfg : PlacesConfig)
    (shufI : List Nat → List Nat) (shufC : Nat → List Nat → List Nat)
    (sched : AssignMap) (initial_pending_ids : List Nat) : AssignMap :=
  fallbackFold resv cfg shufC
    (shufI (initial_pending_ids.filter (fun i => !(dcontains sched i)))) sched

/-- Embeds `solve` (lines 208-248): try strategies 1, 2, 3 in order and
return the first processed solution; otherwise run the fallback on the
fixed assignments left by the last build attempt (every build writes the
same, strategy-independent fixed map). -/
def solveEngine (solver : CSPProblem → Option Sol) (shufI : List Nat → List Nat)
    (shufC : Nat → List Nat → List Nat) (resv : List Reservation)
    (cfg : PlacesConfig) : AssignMap :=
  match tryStrategy solver resv cfg 1 with
  | some m => m
  | none =>
    match tryStrategy solver resv cfg 2 with
    | some m => m
    | none =>
      match tryStrategy solver resv cfg 3 with
      | some m => m
      | none =>
        attempt_random_assignment_fallback resv cfg shufI shufC
          (fixedAssignments resv) (initialPendingIds resv)

/-- Three pending reservations for the double-booking run: ids 1 and 2 both
request lower-floor desk 30 without needing a PC, with overlapping
09:00-12:00 and 10:00-13:00 windows on the same day; id 3 requests desk 31
at 14:00-15:00, so the last generated pairwise pair (2,3) does not
overlap. -/
def resvC1 : List Reservation :=
  [⟨1, some 30, none, 0, 540, 720, "pending", some false⟩,
   ⟨2, some 30, none, 0, 600, 780, "pending", some false⟩,
   ⟨3, some 31, none, 0, 840, 900, "pending", some false⟩]

/-- An accepted reservation holding PC desk 5 from 09:00 to 12:00, and a
pending reservation requesting exactly desk 5 for 10:00-11:00. -/
def resvC3 : List Reservation :=
  [⟨10, some 5, none, 0, 540, 720, "accepted", some true⟩,
   ⟨1, some 5, none, 0, 600, 660, "pending", some true⟩]

/-- A single rejected reservation whose `formation_id` is set. -/
def resvC4 : List Reservation :=
  [⟨9, some 102, some "F9", 0, 600, 720, "rejected", some false⟩]

/-- Three accepted reservations holding all three rooms from 09:00 to
17:00, plus a pending no-PC reservation requesting room 101 for
10:00-11:00: unplaceable in every tier and in the fallback. -/
def resvC7 : List Reservation :=
  [⟨1, some 101, none, 0, 540, 1020, "accepted", some false⟩,
   ⟨2, some 102, none, 0, 540, 1020, "accepted", some false⟩,
   ⟨3, some 103, none, 0, 540, 1020, "accepted", some false⟩,
   ⟨4, some 101, none, 0, 600, 660, "pending", some false⟩]

/-- A single rejected reservation whose `formation_id` is the empty string:
non-null but falsy in Python. -/
def resvC8 : List Reservation :=
  [⟨3, some 7, some "", 0, 540, 720, "rejected", some true⟩]

/-- A pending flexible reservation (no requested place) that needs a PC. -/
def resC5a : Reservation := ⟨11, none, none, 0, 540, 600, "pending", some true⟩

/-- A pending reservation requesting lower-floor desk 30 that needs a PC. -/
def resC5b : Reservation := ⟨12, some 30, none, 0, 540, 600, "pending", some true⟩

/-- A pending reservation requesting lower-floor desk 30 that does not need
a PC. -/
def resC6 : Reservation := ⟨2, some 30, none, 0, 540, 600, "pending", some false⟩

theorem listSolver_sound : SolverSound listSolver := by
  intro p s h
  unfold listSolver at h
  cases hs : solutions p with
  | nil => rw [hs] at h; simp at h
  | cons x xs =>
    rw [hs] at h
    simp only [List.head?, Option.some.injEq] at h
    subst h
    exact List.mem_cons_self _ _

theorem listSolver_complete : SolverComplete listSolver := by
  intro p hne
  unfold listSolver
  cases hs : solutions p with
  | nil => exact absurd hs hne
  | cons x xs => simp

/-- Claim C1 (refuted by this run, hence the code bug): on `resvC1` the
strategy-1 problem has singleton domains forcing reservations 1 and 2 onto
desk 30 with overlapping 09:00-12:00 and 10:00-13:00 windows, yet its only
total assignment satisfies every constraint, because all pairwise
constraints test the non-overlapping intervals of the last generated pair
(2,3) - the Python lambdas capture the loop variables by reference.  So
every sound and complete solver makes the engine return a double-booked
map: two engine-produced entries share `place_id` 30 with overlapping
intervals. -/
theorem C1_pairwise_double_booking :
    ∀ (solver : CSPProblem → Option Sol) (shufI : List Nat → List Nat)
      (shufC : Nat → List Nat → List Nat),
      SolverSound solver → SolverComplete solver →
      dlookup (solveEngine solver shufI shufC resvC1 cfg0) 1
          = some ⟨some 30, 540, 720, "accepted"⟩ ∧
      dlookup (solveEngine solver shufI shufC resvC1 cfg0) 2
          = some ⟨some 30, 600, 780, "accepted"⟩ ∧
      do_times_overlap 540 720 600 780 = true := by
  intro solver shufI shufC hS hC
  have hmap : (create_scheduling_problem_with_strategy 1 resvC1 cfg0).map solutions
      = some [[(1, 30), (2, 30), (3, 31)]] := by decide
  cases hcp : create_scheduling_problem_with_strategy 1 resvC1 cfg0 with
  | none => rw [hcp] at hmap; simp at hmap
  | some p =>
    rw [hcp] at hmap
    have hsolp : solutions p = [[(1, 30), (2, 30), (3, 31)]] := by
      simpa using hmap
    have hne : solutions p ≠ [] := by rw [hsolp]; simp
    obtain ⟨sol, hsol⟩ := Option.isSome_iff_exists.mp (hC p hne)
    have hmem := hS p sol hsol
    rw [hsolp] at hmem
    have hsol_eq : sol = [(1, 30), (2, 30), (3, 31)] := by simpa using hmem
    subst hsol_eq
    have htry : tryStrategy solver resvC1 cfg0 1
        = some (process_solution resvC1 (fixedAssignments resvC1)
            [(1, 30), (2, 30), (3, 31)]) := by
      unfold tryStrategy
      rw [hcp]
      show (match solver p with
            | none => none
            | some sol =>
              if sol.isEmpty then none
              else some (process_solution resvC1 (fixedAssignments resvC1) sol))
          = some (process_solution resvC1 (fixedAssignments resvC1) [(1, 30), (2, 30), (3, 31)])
      rw [hsol]
      rfl
    have heng : solveEngine solver shufI shufC resvC1 cfg0
        = process_solution resvC1 (fixedAssignments resvC1) [(1, 30), (2, 30), (3, 31)] := by
      unfold solveEngine
      rw [htry]
    rw [heng]
    exact ⟨by decide, by decide, by decide⟩

theorem C1_pairwise_double_booking_witness :
    dlookup (solveEngine listSolver id (fun _ l => l) resvC1 cfg0) 1
        = some ⟨some 30, 540, 720, "accepted"⟩ ∧
    dlookup (solveEngine listSolver id (fun _ l => l) resvC1 cfg0) 2
        = some ⟨some 30, 600, 780, "accepted"⟩ ∧
    do_times_overlap 540 720 600 780 = true :=
  C1_pairwise_double_booking listSolver id (fun _ l => l) listSolver_sound listSolver_complete

/-- Claim C2 (refuted, hence the code bug): in the problem built for
`resvC1`, the pairwise constraint scoped on the pair (1,2) accepts both
reservations taking place 30 - it evaluates to `true` - although the two
reservations' own intervals overlap; the lambda consulted the intervals of
the last generated pair (2,3), which do not overlap.  So a pair's
constraint is not evaluated against that pair's own precomputed
intervals. -/
theorem C2_pair_constraint_reads_last_pair :
    (create_scheduling_problem_with_strategy 1 resvC1 cfg0).map
        (fun p => p.binary.map (fun c => (c.1, c.2.1, c.2.2 30 30)))
      = some [(1, 2, true), (1, 3, true), (2, 3, true)] ∧
    do_times_overlap (parse_time_slot 0 540) (parse_time_slot 0 720)
        (parse_time_slot 0 600) (parse_time_slot 0 780) = true ∧
    do_times_overlap (parse_time_slot 0 600) (parse_time_slot 0 780)
        (parse_time_slot 0 840) (parse_time_slot 0 900) = false := by
  decide

/-- Counterexample to claim C3: reservation 1 of `resvC3` requests exactly
desk 5, yet its tier-1 candidate domain is the whole desk range 1-24, and a
run of the engine (enumeration solver, identity shuffles) assigns it desk 1
because desk 5 is held by a fixed reservation. -/
theorem C3_requested_place_not_collapsed :
    (resById resvC3 1).map (fun r => r.place_id) = some (some 5) ∧
    possible_places 1 cfg0 ⟨1, some 5, none, 0, 600, 660, "pending", some true⟩
      = List.range' 1 24 ∧
    dlookup (solveEngine listSolver id (fun _ l => l) resvC3 cfg0) 1
      = some ⟨some 1, 600, 660, "accepted"⟩ := by
  decide

/-- Counterexample to claim C4: the single reservation of `resvC4` has
`request_status = "rejected"` and a truthy `formation_id`, and the engine's
output contains it (line 60 tests `accepted or formation_id` before the
status is examined further, so a rejected formation reservation is recorded
as fixed). -/
theorem C4_rejected_formation_in_output :
    (resById resvC4 9).map (fun r => (r.request_status, pyTruthy r.formation_id))
      = some ("rejected", true) ∧
    dlookup (solveEngine listSolver id (fun _ l => l) resvC4 cfg0) 9
      = some ⟨some 102, 600, 720, "accepted"⟩ := by
  decide

/-- Claim C5 (refuted, hence the code bug): in tier 2 a needs-PC flexible
reservation gets an empty domain (line 106 compares instead of assigning),
not the resource-desk/plain-desk union, although both inventories of `cfg0`
are non-empty; and a needs-PC lower-floor request gets the plain desks
only, again not the union. -/
theorem C5_tier2_domain_not_union :
    possible_places 2 cfg0 resC5a = [] ∧
    cfg0.coworking_pc_desks ≠ [] ∧
    cfg0.lower_floor_desks ≠ [] ∧
    possible_places 2 cfg0 resC5b = cfg0.lower_floor_desks := by
  decide

/-- Counterexample to claim C6: reservation `resC6` does not need the
resource, yet its tier-1 domain is the non-empty `[30]` (lines 94-95 allow
a specifically requested lower-floor desk), and desk 30 is not a resource
desk. -/
theorem C6_tier1_no_pc_not_empty :
    resC6.needPc.getD true = false ∧
    possible_places 1 cfg0 resC6 = [30] ∧
    ¬ (30 ∈ cfg0.coworking_pc_desks) := by
  decide

/-- Counterexample to claim C7: on `resvC7` every tier fails and the
fallback cannot place reservation 4 (its sole candidate, room 101, is held
by a fixed reservation), and the returned map simply has no entry for it -
no `unassigned` record is created (scheduler.py lines 356-359 only
print). -/
theorem C7_unplaceable_reservation_absent :
    dlookup (solveEngine listSolver id (fun _ l => l) resvC7 cfg0) 4 = none ∧
    dcontains (solveEngine listSolver id (fun _ l => l) resvC7 cfg0) 4 = false ∧
    dlookup (solveEngine listSolver id (fun _ l => l) resvC7 cfg0) 1
      = some ⟨some 101, 540, 1020, "accepted"⟩ := by
  decide

/-- Counterexample to claim C8: the reservation of `resvC8` has the
non-null `formation_id` value `""`, which is falsy in Python, and status
`rejected`: the engine output contains no entry for it at all. -/
theorem C8_empty_string_formation_dropped :
    (resById resvC8 3).map (fun r => r.formation_id) = some (some "") ∧
    (some "" ≠ (none : Option String)) ∧
    dlookup (solveEngine listSolver id (fun _ l => l) resvC8 cfg0) 3 = none := by
  decide

/-- Claim C10: the place classifier is total with range
{pc_desk, lower_floor, room, unknown}; it maps `None` and every id outside
1-24, 26-45, {101,102,103} to `unknown`; in particular the legacy
lower-floor id 25 is classified `unknown`, the same category as a flexible
(no requested place) reservation. -/
theorem C10_place_type_total :
    (∀ pid : Option Nat, get_place_type pid = "pc_desk"
      ∨ get_place_type pid = "lower_floor"
      ∨ get_place_type pid = "room"
      ∨ get_place_type pid = "unknown") ∧
    get_place_type none = "unknown" ∧
    (∀ n : Nat, ¬(1 ≤ n ∧ n ≤ 24) → ¬(26 ≤ n ∧ n ≤ 45) →
      ¬(n = 101 ∨ n = 102 ∨ n = 103) → get_place_type (some n) = "unknown") ∧
    get_place_type (some 25) = "unknown" ∧
    get_place_type (some 25) = get_place_type none := by
  refine ⟨?_, rfl, ?_, by decide, by decide⟩
  · intro pid
    cases pid with
    | none => exact Or.inr (Or.inr (Or.inr rfl))
    | some n =>
      simp only [get_place_type]
      split
      · exact Or.inl rfl
      · split
        · exact Or.inr (Or.inl rfl)
        · split
          · exact Or.inr (Or.inr (Or.inl rfl))
          · exact Or.inr (Or.inr (Or.inr rfl))
  · intro n h1 h2 h3
    simp only [get_place_type, if_neg h1, if_neg h2, if_neg h3]

theorem C10_place_type_total_witness :
    get_place_type (some 25) = "unknown" ∧ get_place_type (some 999) = "unknown" :=
  ⟨C10_place_type_total.2.2.2.1,
   C10_place_type_total.2.2.1 999 (by decide) (by decide) (by decide)⟩

theorem dlookup_dinsert {α : Type} (m : List (Nat × α)) (k : Nat) (v : α) (i : Nat) :
    dlookup (dinsert m k v) i = if i = k then some v else dlookup m i := by
  induction m with
  | nil =>
    by_cases h : i = k
    · simp [dinsert, dlookup, List.find?, h]
    · have hki : (k == i) = false := beq_eq_false_iff_ne.mpr (fun hh => h hh.symm)
      simp [dinsert, dlookup, List.find?, h, hki]
  | cons a t ih =>
    by_cases hak : a.1 = k
    · by_cases hik : i = k
      · simp [dinsert, dlookup, List.find?, hak, hik]
      · have hki : (k == i) = false := beq_eq_false_iff_ne.mpr (fun hh => hik hh.symm)
        have hai : (a.1 == i) = false := by
          simp only [beq_eq_false_iff_ne, ne_eq]
          intro h
          exact hik (by rw [← h, hak])
        simp [dinsert, dlookup, List.find?, hak, hik, hki, hai]
    · by_cases hai : a.1 = i
      · have hik : ¬ i = k := by
          intro h
          exact hak (by rw [hai, h])
        simp [dinsert, dlookup, List.find?, hak, hai, hik]
      · have hai' : (a.1 == i) = false := beq_eq_false_iff_ne.mpr hai
        simp only [dlookup] at ih
        simp [dinsert, dlookup, List.find?, hak, hai', ih]

theorem dcontains_iff_dlookup {α : Type} (m : List (Nat × α)) (i : Nat) :
    dcontains m i = true ↔ dlookup m i ≠ none := by
  induction m with
  | nil => simp [dcontains, dlookup]
  | cons a t ih =>
    by_cases hai : a.1 = i
    · have hai' : (a.1 == i) = true := beq_iff_eq.mpr hai
      simp [dcontains, dlookup, List.find?, hai']
    · have hai' : (a.1 == i) = false := beq_eq_false_iff_ne.mpr hai
      simp only [dcontains, dlookup] at ih
      simp [dcontains, dlookup, List.find?, hai', ih]

theorem fixedAssignments_foldl_mem :
    ∀ (l : List Reservation) (m : AssignMap) (i : Nat) (e : SchedEntry),
      dlookup (l.foldl (fun m r => if isFixedRes r then dinsert m r.id (fixedEntry r) else m) m) i
        = some e →
      dlookup m i = some e ∨ ∃ r, r ∈ l ∧ r.id = i ∧ isFixedRes r = true := by
  intro l
  induction l with
  | nil => intro m i e h; exact Or.inl h
  | cons a t ih =>
    intro m i e h
    simp only [List.foldl_cons] at h
    rcases ih _ _ _ h with h' | ⟨r, hr, hid, hf⟩
    · by_cases hf : isFixedRes a = true
      · rw [if_pos hf, dlookup_dinsert] at h'
        by_cases hia : i = a.id
        · exact Or.inr ⟨a, List.mem_cons_self _ _, hia.symm, hf⟩
        · rw [if_neg hia] at h'
          exact Or.inl h'
      · rw [if_neg hf] at h'
        exact Or.inl h'
    · exact Or.inr ⟨r, List.mem_cons_of_mem _ hr, hid, hf⟩

theorem fixedAssignments_mem (resv : List Reservation) (i : Nat) (e : SchedEntry)
    (h : dlookup (fixedAssignments resv) i = some e) :
    ∃ r, r ∈ resv ∧ r.id = i ∧ isFixedRes r = true := by
  rcases fixedAssignments_foldl_mem resv [] i e h with h' | h'
  · simp [dlookup] at h'
  · exact h'

theorem fixedAssignments_foldl_preserve :
    ∀ (l : List Reservation) (m : AssignMap) (i : Nat), (∀ r ∈ l, r.id ≠ i) →
      dlookup (l.foldl (fun m r => if isFixedRes r then dinsert m r.id (fixedEntry r) else m) m) i
        = dlookup m i := by
  intro l
  induction l with
  | nil => intro m i _; rfl
  | cons a t ih =>
    intro m i hne
    simp only [List.foldl_cons]
    rw [ih _ _ (fun r hr => hne r (List.mem_cons_of_mem _ hr))]
    by_cases hf : isFixedRes a = true
    · rw [if_pos hf, dlookup_dinsert,
        if_neg (fun h => hne a (List.mem_cons_self _ _) h.symm)]
    · rw [if_neg hf]

theorem fixedAssignments_lookup_self :
    ∀ (resv : List Reservation) (r : Reservation),
      (resv.map (fun x => x.id)).Nodup → r ∈ resv → isFixedRes r = true →
      dlookup (fixedAssignments resv) r.id = some (fixedEntry r) := by
  suffices h : ∀ (l : List Reservation) (m : AssignMap) (r : Reservation),
      (l.map (fun x => x.id)).Nodup → r ∈ l → isFixedRes r = true →
      dlookup
        (l.foldl (fun m x => if isFixedRes x then dinsert m x.id (fixedEntry x) else m) m) r.id
        = some (fixedEntry r) by
    intro resv r hnd hm hf
    exact h resv [] r hnd hm hf
  intro l
  induction l with
  | nil =>
    intro m r _ hm
    simp at hm
  | cons a t ih =>
    intro m r hnd hm hf
    simp only [List.map_cons, List.nodup_cons] at hnd
    simp only [List.foldl_cons]
    rcases List.mem_cons.mp hm with rfl | hmt
    · rw [if_pos hf]
      rw [fixedAssignments_foldl_preserve t _ r.id
        (fun x hx hxe => hnd.1 (hxe ▸ List.mem_map_of_mem (fun y => y.id) hx))]
      rw [dlookup_dinsert, if_pos rfl]
    · exact ih _ r hnd.2 hmt hf

theorem resById_mem :
    ∀ (resv : List Reservation) (i : Nat) (r : Reservation),
      resById resv i = some r → r ∈ resv ∧ r.id = i := by
  suffices h : ∀ (l : List Reservation) (acc : Option Reservation) (i : Nat) (r : Reservation),
      l.foldl (fun acc x => if x.id == i then some x else acc) acc = some r →
      (r ∈ l ∧ r.id = i) ∨ acc = some r by
    intro resv i r hr
    rcases h resv none i r hr with h' | h'
    · exact h'
    · simp at h'
  intro l
  induction l with
  | nil => intro acc i r h; exact Or.inr h
  | cons a t ih =>
    intro acc i r h
    simp only [List.foldl_cons] at h
    rcases ih _ i r h with ⟨hm, hid⟩ | h'
    · exact Or.inl ⟨List.mem_cons_of_mem _ hm, hid⟩
    · by_cases hai : (a.id == i) = true
      · rw [if_pos hai] at h'
        injection h' with h''
        subst h''
        exact Or.inl ⟨List.mem_cons_self _ _, beq_iff_eq.mp hai⟩
      · rw [if_neg hai] at h'
        exact Or.inr h'

theorem reservations_id_inj {resv : List Reservation}
    (hnd : (resv.map (fun r => r.id)).Nodup) {r1 r2 : Reservation}
    (h1 : r1 ∈ resv) (h2 : r2 ∈ resv) (h : r1.id = r2.id) : r1 = r2 :=
  List.inj_on_of_nodup_map hnd h1 h2 h

theorem process_solution_preserve :
    ∀ (sol : Sol) (resv : List Reservation) (m : AssignMap) (i : Nat),
      ¬ i ∈ sol.map (fun kv => kv.1) →
      dlookup (process_solution resv m sol) i = dlookup m i := by
  intro sol
  induction sol with
  | nil => intro resv m i _; rfl
  | cons kv t ih =>
    intro resv m i hni
    simp only [List.map_cons, List.mem_cons, not_or] at hni
    cases hres : resById resv kv.1 with
    | none =>
      have hstep : process_solution resv m (kv :: t) = process_solution resv m t := by
        unfold process_solution
        simp only [List.foldl_cons, hres]
      rw [hstep]
      exact ih resv m i hni.2
    | some r =>
      have hstep : process_solution resv m (kv :: t)
          = process_solution resv
              (dinsert m kv.1
                ⟨some kv.2, parse_time_slot r.day r.start_time,
                  parse_time_slot r.day r.end_time, "accepted"⟩) t := by
        unfold process_solution
        simp only [List.foldl_cons, hres]
      rw [hstep, ih _ _ i hni.2, dlookup_dinsert, if_neg hni.1]

theorem process_solution_mem :
    ∀ (sol : Sol) (resv : List Reservation) (m : AssignMap) (i : Nat) (e : SchedEntry),
      dlookup (process_solution resv m sol) i = some e →
      i ∈ sol.map (fun kv => kv.1) ∨ dlookup m i = some e := by
  intro sol
  induction sol with
  | nil => intro resv m i e h; exact Or.inr h
  | cons kv t ih =>
    intro resv m i e h
    cases hres : resById resv kv.1 with
    | none =>
      have hstep : process_solution resv m (kv :: t) = process_solution resv m t := by
        unfold process_solution
        simp only [List.foldl_cons, hres]
      rw [hstep] at h
      rcases ih resv m i e h with h' | h'
      · exact Or.inl (by simp [h'])
      · exact Or.inr h'
    | some r =>
      have hstep : process_solution resv m (kv :: t)
          = process_solution resv
              (dinsert m kv.1
                ⟨some kv.2, parse_time_slot r.day r.start_time,
                  parse_time_slot r.day r.end_time, "accepted"⟩) t := by
        unfold process_solution
        simp only [List.foldl_cons, hres]
      rw [hstep] at h
      rcases ih _ _ i e h with h' | h'
      · exact Or.inl (by simp [h'])
      · by_cases hik : i = kv.1
        · exact Or.inl (by simp [hik])
        · rw [dlookup_dinsert, if_neg hik] at h'
          exact Or.inr h'

theorem assignProducts_keys :
    ∀ (vars : List (Nat × List Nat)) (s : Sol), s ∈ assignProducts vars →
      s.map (fun kv => kv.1) = vars.map (fun v => v.1) := by
  intro vars
  induction vars with
  | nil =>
    intro s hs
    simp only [assignProducts, List.mem_singleton] at hs
    subst hs
    rfl
  | cons v t ih =>
    intro s hs
    obtain ⟨a, dom⟩ := v
    simp only [assignProducts, List.mem_flatMap, List.mem_map] at hs
    obtain ⟨x, _, s', hs', rfl⟩ := hs
    simp [ih s' hs']

theorem solutions_keys (p : CSPProblem) (s : Sol) (h : s ∈ solutions p) :
    s.map (fun kv => kv.1) = p.vars.map (fun v => v.1) :=
  assignProducts_keys p.vars s (List.mem_of_mem_filter h)

theorem createAcc_vars_sub :
    ∀ (l : List Nat) (strategy_level : Nat) (resv : List Reservation) (cfg : PlacesConfig)
      (fixed : AssignMap) (acc : List (Nat × List Nat) × List (Nat × (Nat → Bool)))
      (v : Nat × List Nat),
      v ∈ (l.foldl (buildPendingVar strategy_level resv cfg fixed) acc).1 →
      v ∈ acc.1 ∨ v.1 ∈ l := by
  intro l
  induction l with
  | nil => intro _ _ _ _ acc v h; exact Or.inl h
  | cons j t ih =>
    intro strategy_level resv cfg fixed acc v h
    simp only [List.foldl_cons] at h
    rcases ih _ _ _ _ _ v h with h' | h'
    · unfold buildPendingVar at h'
      cases hres : resById resv j with
      | none =>
        simp only [hres] at h'
        exact Or.inl h'
      | some r =>
        simp only [hres] at h'
        by_cases he : (possible_places strategy_level cfg r).isEmpty = true
        · rw [if_pos he] at h'
          exact Or.inl h'
        · rw [if_neg he] at h'
          simp only [List.mem_append, List.mem_singleton] at h'
          rcases h' with h'' | h''
          · exact Or.inl h''
          · subst h''
            exact Or.inr (List.mem_cons_self _ _)
    · exact Or.inr (List.mem_cons_of_mem _ h')

theorem create_some_vars :
    ∀ (strategy_level : Nat) (resv : List Reservation) (cfg : PlacesConfig) (p : CSPProblem),
      create_scheduling_problem_with_strategy strategy_level resv cfg = some p →
      p.vars = (createAcc strategy_level resv cfg).1 := by
  intro strategy_level resv cfg p h
  unfold create_scheduling_problem_with_strategy at h
  split at h
  · exact absurd h (by simp)
  · injection h with h'
    rw [← h']

theorem create_vars_pending :
    ∀ (strategy_level : Nat) (resv : List Reservation) (cfg : PlacesConfig) (p : CSPProblem),
      create_scheduling_problem_with_strategy strategy_level resv cfg = some p →
      ∀ v, v ∈ p.vars → v.1 ∈ pendingIds resv := by
  intro strategy_level resv cfg p h v hv
  rw [create_some_vars strategy_level resv cfg p h] at hv
  rcases createAcc_vars_sub (pendingIds resv) strategy_level resv cfg
      (fixedAssignments resv) ([], []) v hv with h' | h'
  · simp at h'
  · exact h'

theorem tryStrategy_some :
    ∀ (solver : CSPProblem → Option Sol) (resv : List Reservation) (cfg : PlacesConfig)
      (strategy_level : Nat) (m : AssignMap),
      tryStrategy solver resv cfg strategy_level = some m →
      ∃ p sol, create_scheduling_problem_with_strategy strategy_level resv cfg = some p ∧
        solver p = some sol ∧ sol ≠ [] ∧
        m = process_solution resv (fixedAssignments resv) sol := by
  intro solver resv cfg strategy_level m h
  unfold tryStrategy at h
  cases hc : create_scheduling_problem_with_strategy strategy_level resv cfg with
  | none =>
    simp only [hc] at h
    exact Option.noConfusion h
  | some p =>
    simp only [hc] at h
    cases hs : solver p with
    | none =>
      simp only [hs] at h
      exact Option.noConfusion h
    | some sol =>
      simp only [hs] at h
      by_cases he : sol.isEmpty = true
      · rw [if_pos he] at h
        exact absurd h (by simp)
      · rw [if_neg he] at h
        injection h with h'
        refine ⟨p, sol, rfl, hs, ?_, h'.symm⟩
        intro hnil
        exact he (by rw [hnil]; rfl)

theorem fallbackStep_other :
    ∀ (resv : List Reservation) (cfg : PlacesConfig) (shufC : Nat → List Nat → List Nat)
      (sched : AssignMap) (j i : Nat), ¬ i = j →
      dlookup (fallbackStep resv cfg shufC sched j) i = dlookup sched i := by
  intro resv cfg shufC sched j i hij
  unfold fallbackStep
  cases hres : resById resv j with
  | none => rfl
  | some r =>
    dsimp only
    cases hfind : (shufC j (fallbackCandidates cfg r)).find? (fun p =>
        placeAvailable sched p (parse_time_slot r.day r.start_time)
          (parse_time_slot r.day r.end_time)) with
    | none => rfl
    | some q =>
      dsimp only
      rw [dlookup_dinsert, if_neg hij]

theorem fallbackFold_preserve :
    ∀ (L : List Nat) (resv : List Reservation) (cfg : PlacesConfig)
      (shufC : Nat → List Nat → List Nat) (sched : AssignMap) (i : Nat), ¬ i ∈ L →
      dlookup (fallbackFold resv cfg shufC L sched) i = dlookup sched i := by
  intro L
  induction L with
  | nil => intro _ _ _ _ _ _; rfl
  | cons j t ih =>
    intro resv cfg shufC sched i hni
    simp only [List.mem_cons, not_or] at hni
    have hstep : fallbackFold resv cfg shufC (j :: t) sched
        = fallbackFold resv cfg shufC t (fallbackStep resv cfg shufC sched j) := rfl
    rw [hstep, ih _ _ _ _ _ hni.2]
    exact fallbackStep_other resv cfg shufC sched j i hni.1

theorem fallbackFold_mem :
    ∀ (L : List Nat) (resv : List Reservation) (cfg : PlacesConfig)
      (shufC : Nat → List Nat → List Nat) (sched : AssignMap) (i : Nat) (e : SchedEntry),
      dlookup (fallbackFold resv cfg shufC L sched) i = some e →
      dlookup sched i = some e ∨ i ∈ L := by
  intro L
  induction L with
  | nil => intro _ _ _ _ _ _ h; exact Or.inl h
  | cons j t ih =>
    intro resv cfg shufC sched i e h
    have hstep : fallbackFold resv cfg shufC (j :: t) sched
        = fallbackFold resv cfg shufC t (fallbackStep resv cfg shufC sched j) := rfl
    rw [hstep] at h
    rcases ih _ _ _ _ i e h with h' | h'
    · by_cases hij : i = j
      · exact Or.inr (by simp [hij])
      · rw [fallbackStep_other resv cfg shufC sched j i hij] at h'
        exact Or.inl h'
    · exact Or.inr (List.mem_cons_of_mem _ h')

theorem mem_pendingIds_iff (resv : List Reservation) (i : Nat) :
    i ∈ pendingIds resv ↔ ∃ r, r ∈ resv ∧ isPendingRes r = true ∧ r.id = i := by
  simp [pendingIds, List.mem_map, List.mem_filter, and_assoc]

theorem mem_initialPendingIds_iff (resv : List Reservation) (i : Nat) :
    i ∈ initialPendingIds resv
      ↔ ∃ r, r ∈ resv ∧ r.request_status = "pending" ∧ r.id = i := by
  simp [initialPendingIds, List.mem_map, List.mem_filter, and_assoc]

theorem solveEngine_lookup_sources :
    ∀ (solver : CSPProblem → Option Sol) (shufI : List Nat → List Nat)
      (shufC : Nat → List Nat → List Nat) (resv : List Reservation) (cfg : PlacesConfig)
      (i : Nat) (e : SchedEntry),
      SolverSound solver → (∀ l, (shufI l).Perm l) →
      dlookup (solveEngine solver shufI shufC resv cfg) i = some e →
      dlookup (fixedAssignments resv) i = some e ∨ i ∈ pendingIds resv
        ∨ i ∈ initialPendingIds resv := by
  intro solver shufI shufC resv cfg i e hS hI h
  have htier : ∀ s m, tryStrategy solver resv cfg s = some m → dlookup m i = some e →
      dlookup (fixedAssignments resv) i = some e ∨ i ∈ pendingIds resv := by
    intro s m htry hm
    obtain ⟨p, sol, hc, hsol, _, hmdef⟩ := tryStrategy_some solver resv cfg s m htry
    subst hmdef
    rcases process_solution_mem sol resv _ i e hm with hmem | hfix
    · right
      have hkeys := solutions_keys p sol (hS p sol hsol)
      rw [hkeys] at hmem
      obtain ⟨v, hv, hvid⟩ := List.mem_map.mp hmem
      exact hvid ▸ create_vars_pending s resv cfg p hc v hv
    · exact Or.inl hfix
  unfold solveEngine at h
  cases htry1 : tryStrategy solver resv cfg 1 with
  | some m =>
    simp only [htry1] at h
    rcases htier 1 m htry1 h with h' | h'
    · exact Or.inl h'
    · exact Or.inr (Or.inl h')
  | none =>
    simp only [htry1] at h
    cases htry2 : tryStrategy solver resv cfg 2 with
    | some m =>
      simp only [htry2] at h
      rcases htier 2 m htry2 h with h' | h'
      · exact Or.inl h'
      · exact Or.inr (Or.inl h')
    | none =>
      simp only [htry2] at h
      cases htry3 : tryStrategy solver resv cfg 3 with
      | some m =>
        simp only [htry3] at h
        rcases htier 3 m htry3 h with h' | h'
        · exact Or.inl h'
        · exact Or.inr (Or.inl h')
      | none =>
        simp only [htry3] at h
        unfold attempt_random_assignment_fallback at h
        rcases fallbackFold_mem _ _ _ _ _ i e h with h' | h'
        · exact Or.inl h'
        · have h1 : i ∈ (initialPendingIds resv).filter
              (fun j => !(dcontains (fixedAssignments resv) j)) :=
            (hI _).mem_iff.mp h'
          exact Or.inr (Or.inr (List.mem_of_mem_filter h1))

/-- Claim C4 as amended: a rejected reservation whose `formation_id` is not
truthy never appears in the engine's output; a rejected reservation with a
truthy `formation_id` is recorded as fixed (see the counterexample). -/
theorem C4_rejected_excluded_unless_formation :
    ∀ (solver : CSPProblem → Option Sol) (shufI : List Nat → List Nat)
      (shufC : Nat → List Nat → List Nat) (resv : List Reservation) (cfg : PlacesConfig),
      SolverSound solver → (∀ l, (shufI l).Perm l) →
      (resv.map (fun r => r.id)).Nodup →
      ∀ r, r ∈ resv → r.request_status = "rejected" → pyTruthy r.formation_id = false →
      dlookup (solveEngine solver shufI shufC resv cfg) r.id = none := by
  intro solver shufI shufC resv cfg hS hI hnd r hrm hstat hform
  cases hl : dlookup (solveEngine solver shufI shufC resv cfg) r.id with
  | none => rfl
  | some e =>
    exfalso
    rcases solveEngine_lookup_sources solver shufI shufC resv cfg r.id e hS hI hl
      with hfix | hpend | hini
    · obtain ⟨r', hm', hid', hf'⟩ := fixedAssignments_mem resv r.id e hfix
      have heq : r' = r := reservations_id_inj hnd hm' hrm hid'
      subst heq
      simp [isFixedRes, hstat, hform] at hf'
    · rw [mem_pendingIds_iff] at hpend
      obtain ⟨r', hm', hp', hid'⟩ := hpend
      have heq : r' = r := reservations_id_inj hnd hm' hrm hid'
      subst heq
      simp [isPendingRes, isFixedRes, hstat, hform] at hp'
    · rw [mem_initialPendingIds_iff] at hini
      obtain ⟨r', hm', hp', hid'⟩ := hini
      have heq : r' = r := reservations_id_inj hnd hm' hrm hid'
      subst heq
      rw [hstat] at hp'
      simp at hp'

/-- A rejected reservation without any `formation_id`, for the C4 witness
run. -/
def resvC4b : List Reservation := [⟨7, some 3, none, 0, 540, 600, "rejected", some true⟩]

theorem C4_rejected_excluded_unless_formation_witness :
    dlookup (solveEngine listSolver id (fun _ l => l) resvC4b cfg0) 7 = none :=
  C4_rejected_excluded_unless_formation listSolver id (fun _ l => l) resvC4b cfg0
    listSolver_sound (fun l => List.Perm.refl l) (by decide)
    ⟨7, some 3, none, 0, 540, 600, "rejected", some true⟩ (by decide) rfl rfl

/-- Claim C8 as amended: every reservation with status `accepted` or a
truthy (non-null, non-empty) `formation_id` appears in the output with its
original requested place and parsed interval, and neither the tier path
nor the fallback ever overwrites or removes that entry. -/
theorem C8_fixed_entries_preserved :
    ∀ (solver : CSPProblem → Option Sol) (shufI : List Nat → List Nat)
      (shufC : Nat → List Nat → List Nat) (resv : List Reservation) (cfg : PlacesConfig),
      SolverSound solver → (∀ l, (shufI l).Perm l) →
      (resv.map (fun r => r.id)).Nodup →
      ∀ r, r ∈ resv →
      (r.request_status = "accepted" ∨ pyTruthy r.formation_id = true) →
      dlookup (solveEngine solver shufI shufC resv cfg) r.id
        = some ⟨r.place_id, parse_time_slot r.day r.start_time,
            parse_time_slot r.day r.end_time, "accepted"⟩ := by
  intro solver shufI shufC resv cfg hS hI hnd r hrm hfx
  have hf : isFixedRes r = true := by
    rcases hfx with h | h <;> simp [isFixedRes, h]
  have hfix : dlookup (fixedAssignments resv) r.id = some (fixedEntry r) :=
    fixedAssignments_lookup_self resv r hnd hrm hf
  have hnp : ¬ r.id ∈ pendingIds resv := by
    intro hmem
    rw [mem_pendingIds_iff] at hmem
    obtain ⟨r', hm', hp', hid'⟩ := hmem
    have heq : r' = r := reservations_id_inj hnd hm' hrm hid'
    subst heq
    simp [isPendingRes, hf] at hp'
  have htier : ∀ s m, tryStrategy solver resv cfg s = some m →
      dlookup m r.id = some (fixedEntry r) := by
    intro s m htry
    obtain ⟨p, sol, hc, hsol, _, hmdef⟩ := tryStrategy_some solver resv cfg s m htry
    subst hmdef
    have hkeys := solutions_keys p sol (hS p sol hsol)
    have hnk : ¬ r.id ∈ sol.map (fun kv => kv.1) := by
      rw [hkeys]
      intro hmem
      obtain ⟨v, hv, hvid⟩ := List.mem_map.mp hmem
      exact hnp (hvid ▸ create_vars_pending s resv cfg p hc v hv)
    rw [process_solution_preserve sol resv _ _ hnk]
    exact hfix
  unfold solveEngine
  cases htry1 : tryStrategy solver resv cfg 1 with
  | some m => exact htier 1 m htry1
  | none =>
    cases htry2 : tryStrategy solver resv cfg 2 with
    | some m => exact htier 2 m htry2
    | none =>
      cases htry3 : tryStrategy solver resv cfg 3 with
      | some m => exact htier 3 m htry3
      | none =>
        show dlookup (attempt_random_assignment_fallback resv cfg shufI shufC
            (fixedAssignments resv) (initialPendingIds resv)) r.id = _
        unfold attempt_random_assignment_fallback
        have hcont : dcontains (fixedAssignments resv) r.id = true :=
          (dcontains_iff_dlookup _ _).mpr (by rw [hfix]; simp)
        have hnL : ¬ r.id ∈ shufI ((initialPendingIds resv).filter
            (fun j => !(dcontains (fixedAssignments resv) j))) := by
          intro hmem
          have h1 := (hI _).mem_iff.mp hmem
          have h2 := List.of_mem_filter h1
          rw [hcont] at h2
          simp at h2
        rw [fallbackFold_preserve _ _ _ _ _ _ hnL]
        exact hfix

/-- A single accepted reservation, for the C8 witness run. -/
def resvC8b : List Reservation := [⟨1, some 5, none, 3, 540, 720, "accepted", some true⟩]

theorem C8_fixed_entries_preserved_witness :
    dlookup (solveEngine listSolver id (fun _ l => l) resvC8b cfg0) 1
      = some ⟨some 5, parse_time_slot 3 540, parse_time_slot 3 720, "accepted"⟩ :=
  C8_fixed_entries_preserved listSolver id (fun _ l => l) resvC8b cfg0
    listSolver_sound (fun l => List.Perm.refl l) (by decide)
    ⟨1, some 5, none, 3, 540, 720, "accepted", some true⟩ (by decide) (Or.inl rfl)

theorem fallbackCandidates_collapse :
    ∀ (cfg : PlacesConfig) (r : Reservation) (p : Nat), r.place_id = some p →
      fallbackCandidates cfg r = [p] := by
  intro cfg r p hp
  simp [fallbackCandidates, hp, pyDedup]

theorem fallbackFold_requested_place :
    ∀ (L : List Nat) (resv : List Reservation) (cfg : PlacesConfig)
      (shufC : Nat → List Nat → List Nat) (sched : AssignMap) (i : Nat)
      (r : Reservation) (p : Nat) (e : SchedEntry),
      (∀ j l, (shufC j l).Perm l) →
      resById resv i = some r → r.place_id = some p →
      dlookup (fallbackFold resv cfg shufC L sched) i = some e →
      dlookup sched i = some e ∨ e.place_id = some p := by
  intro L
  induction L with
  | nil => intro _ _ _ _ _ _ _ _ _ _ _ h; exact Or.inl h
  | cons j t ih =>
    intro resv cfg shufC sched i r p e hperm hres hp h
    have hstep : fallbackFold resv cfg shufC (j :: t) sched
        = fallbackFold resv cfg shufC t (fallbackStep resv cfg shufC sched j) := rfl
    rw [hstep] at h
    rcases ih resv cfg shufC _ i r p e hperm hres hp h with h' | h'
    · by_cases hij : i = j
      · subst hij
        unfold fallbackStep at h'
        simp only [hres] at h'
        cases hfind : (shufC i (fallbackCandidates cfg r)).find? (fun q =>
            placeAvailable sched q (parse_time_slot r.day r.start_time)
              (parse_time_slot r.day r.end_time)) with
        | none =>
          simp only [hfind] at h'
          exact Or.inl h'
        | some q =>
          simp only [hfind] at h'
          rw [dlookup_dinsert, if_pos rfl] at h'
          right
          have hq : q ∈ shufC i (fallbackCandidates cfg r) :=
            List.mem_of_find?_eq_some hfind
          rw [fallbackCandidates_collapse cfg r p hp] at hq
          have hqp : q ∈ [p] := (hperm i [p]).mem_iff.mp hq
          have hqe : q = p := by simpa using hqp
          subst hqe
          injection h' with h''
          rw [← h'']
      · rw [fallbackStep_other resv cfg shufC sched j i hij] at h'
        exact Or.inl h'
    · exact Or.inr h'

/-- Claim C3 as amended: the hard place preference is honored by the
fallback, not by the tiers.  In the fallback a reservation with a set
`place_id` has exactly that place as its only candidate, and any entry the
fallback run writes for it (beyond what was already scheduled) carries
exactly that place; in the tiers the requested place only selects the
domain through its category, and the domain may contain other places (see
the counterexample). -/
theorem C3_fallback_candidates_collapse :
    (∀ (cfg : PlacesConfig) (r : Reservation) (p : Nat), r.place_id = some p →
      fallbackCandidates cfg r = [p]) ∧
    (∀ (L : List Nat) (resv : List Reservation) (cfg : PlacesConfig)
       (shufC : Nat → List Nat → List Nat) (sched : AssignMap) (i : Nat)
       (r : Reservation) (p : Nat) (e : SchedEntry),
      (∀ j l, (shufC j l).Perm l) →
      resById resv i = some r → r.place_id = some p →
      dlookup (fallbackFold resv cfg shufC L sched) i = some e →
      dlookup sched i = some e ∨ e.place_id = some p) :=
  ⟨fallbackCandidates_collapse, fallbackFold_requested_place⟩

/-- A single pending reservation requesting desk 5, for the C3 witness
fallback run. -/
def resvC3b : List Reservation := [⟨1, some 5, none, 0, 540, 600, "pending", some true⟩]

theorem C3_fallback_candidates_collapse_witness :
    fallbackCandidates cfg0 resC6 = [30] ∧
    (dlookup ([] : AssignMap) 1
        = some ⟨some 5, 540, 600, "scheduled_random_fallback"⟩ ∨
      SchedEntry.place_id ⟨some 5, 540, 600, "scheduled_random_fallback"⟩ = some 5) := by
  refine ⟨C3_fallback_candidates_collapse.1 cfg0 resC6 30 rfl, ?_⟩
  exact C3_fallback_candidates_collapse.2 [1] resvC3b cfg0 (fun _ l => l) [] 1
    ⟨1, some 5, none, 0, 540, 600, "pending", some true⟩ 5
    ⟨some 5, 540, 600, "scheduled_random_fallback"⟩
    (fun j l => List.Perm.refl l) (by decide) rfl (by decide)

theorem filter_self_mem (l : List Nat) : (l.filter (fun p => decide (p ∈ l))) = l :=
  List.filter_eq_self.mpr (fun a ha => by simpa using ha)

/-- Claim C6 as amended: the tier-1 domain of a reservation that needs the
resource is the resource-desk list exactly when its requested category is
resource-desk or unknown (else empty); the tier-1 domain of a reservation
that does not need the resource is empty unless it requested a specific
place of lower-floor (or unknown) category that belongs to the plain-desk
inventory, in which case the domain is exactly that place (see the
counterexample refuting the always-empty reading). -/
theorem C6_tier1_domain_characterization :
    ∀ (cfg : PlacesConfig) (r : Reservation),
      (r.needPc.getD true = true →
        possible_places 1 cfg r
          = (if get_place_type r.place_id == "pc_desk"
                || get_place_type r.place_id == "unknown"
             then cfg.coworking_pc_desks else [])) ∧
      (r.needPc.getD true = false →
        possible_places 1 cfg r
          = (match r.place_id with
             | some p =>
               if (get_place_type (some p) == "lower_floor"
                    || get_place_type (some p) == "unknown")
                   && decide (p ∈ cfg.lower_floor_desks) then [p] else []
             | none => [])) := by
  intro cfg r
  constructor
  · intro h
    cases hp : r.place_id with
    | none =>
      simp [possible_places, hp, h, get_place_type, filter_self_mem]
    | some p =>
      simp only [possible_places, hp, h]
      simp
  · intro h
    cases hp : r.place_id with
    | none =>
      simp [possible_places, hp, h, get_place_type]
    | some p =>
      simp only [possible_places, hp, h]
      by_cases hc : (get_place_type (some p) == "lower_floor"
          || get_place_type (some p) == "unknown") = true
      · by_cases hm : p ∈ cfg.lower_floor_desks
        · simp [hc, hm]
        · simp [hc, hm]
      · simp [hc]

theorem C6_tier1_domain_characterization_witness :
    possible_places 1 cfg0 resC6 = [30]
      ∧ possible_places 1 cfg0 resC5a = cfg0.coworking_pc_desks := by
  constructor
  · exact ((C6_tier1_domain_characterization cfg0 resC6).2 rfl).trans (by decide)
  · exact ((C6_tier1_domain_characterization cfg0 resC5a).1 rfl).trans (by decide)

/-- Claim C7 as amended: a reservation the fallback cannot place is left
absent from the returned map - the failure is only logged, never recorded
as an `unassigned` entry.  On `resvC7` (all three rooms fixed for the whole
day, a pending no-PC reservation requesting room 101) every run of the
engine - any sound solver, any shuffles - returns a map with no entry for
reservation 4. -/
theorem C7_unassigned_left_absent :
    ∀ (solver : CSPProblem → Option Sol) (shufI : List Nat → List Nat)
      (shufC : Nat → List Nat → List Nat),
      SolverSound solver → (∀ l, (shufI l).Perm l) → (∀ j l, (shufC j l).Perm l) →
      dlookup (solveEngine solver shufI shufC resvC7 cfg0) 4 = none := by
  intro solver shufI shufC hS hI hC
  have h1 : create_scheduling_problem_with_strategy 1 resvC7 cfg0 = none :=
    Option.isNone_iff_eq_none.mp (by decide)
  have h2 : create_scheduling_problem_with_strategy 2 resvC7 cfg0 = none :=
    Option.isNone_iff_eq_none.mp (by decide)
  have h3map : (create_scheduling_problem_with_strategy 3 resvC7 cfg0).map solutions
      = some [] := by decide
  have htry1 : tryStrategy solver resvC7 cfg0 1 = none := by
    unfold tryStrategy
    rw [h1]
  have htry2 : tryStrategy solver resvC7 cfg0 2 = none := by
    unfold tryStrategy
    rw [h2]
  have htry3 : tryStrategy solver resvC7 cfg0 3 = none := by
    unfold tryStrategy
    cases hcp : create_scheduling_problem_with_strategy 3 resvC7 cfg0 with
    | none => rfl
    | some p =>
      rw [hcp] at h3map
      have hsolp : solutions p = [] := by simpa using h3map
      dsimp only
      cases hs : solver p with
      | none => rfl
      | some sol =>
        exfalso
        have hmem := hS p sol hs
        rw [hsolp] at hmem
        simp at hmem
  unfold solveEngine
  rw [htry1, htry2, htry3]
  show dlookup (attempt_random_assignment_fallback resvC7 cfg0 shufI shufC
      (fixedAssignments resvC7) (initialPendingIds resvC7)) 4 = none
  unfold attempt_random_assignment_fallback
  have hunsched : (initialPendingIds resvC7).filter
      (fun j => !(dcontains (fixedAssignments resvC7) j)) = [4] := by decide
  rw [hunsched]
  have hshuf : shufI [4] = [4] := List.perm_singleton.mp (hI [4])
  rw [hshuf]
  show dlookup (fallbackStep resvC7 cfg0 shufC (fixedAssignments resvC7) 4) 4 = none
  unfold fallbackStep
  have hres : resById resvC7 4
      = some ⟨4, some 101, none, 0, 600, 660, "pending", some false⟩ := by decide
  simp only [hres]
  have hcand : fallbackCandidates cfg0 ⟨4, some 101, none, 0, 600, 660, "pending", some false⟩
      = [101] := by decide
  rw [hcand]
  have hshufC : shufC 4 [101] = [101] := List.perm_singleton.mp (hC 4 [101])
  rw [hshufC]
  decide

theorem C7_unassigned_left_absent_witness :
    dlookup (solveEngine listSolver id (fun _ l => l) resvC7 cfg0) 4 = none :=
  C7_unassigned_left_absent listSolver id (fun _ l => l) listSolver_sound
    (fun l => List.Perm.refl l) (fun j l => List.Perm.refl l)

/-- Number of availability tests performed by the linear candidate scan of
lines 335-354: one per candidate up to and including the first free one. -/
def scanChecks (sched : AssignMap) (s e : Nat) : List Nat → Nat
  | [] => 0
  | p :: ps => if placeAvailable sched p s e then 1 else 1 + scanChecks sched s e ps

/-- Number of availability tests performed by one fallback iteration. -/
def fallbackStepCount (resv : List Reservation) (cfg : PlacesConfig)
    (shufC : Nat → List Nat → List Nat) (sched : AssignMap) (i : Nat) : Nat :=
  match resById resv i with
  | none => 0
  | some r =>
    scanChecks sched (parse_time_slot r.day r.start_time)
      (parse_time_slot r.day r.end_time) (shufC i (fallbackCandidates cfg r))

/-- Total number of availability tests performed by the fallback loop,
threading the same schedule states as `fallbackFold`. -/
def fallbackFoldCount (resv : List Reservation) (cfg : PlacesConfig)
    (shufC : Nat → List Nat → List Nat) : List Nat → AssignMap → Nat
  | [], _ => 0
  | i :: L, sched =>
    fallbackStepCount resv cfg shufC sched i
      + fallbackFoldCount resv cfg shufC L (fallbackStep resv cfg shufC sched i)

theorem scanChecks_le (sched : AssignMap) (s e : Nat) :
    ∀ l : List Nat, scanChecks sched s e l ≤ l.length := by
  intro l
  induction l with
  | nil => exact Nat.le_refl 0
  | cons p ps ih =>
    by_cases h : placeAvailable sched p s e = true
    · simp [scanChecks, h]
    · simp only [scanChecks, if_neg h, List.length_cons]
      omega

theorem pyDedup_foldl_nodup :
    ∀ (l acc : List Nat), acc.Nodup →
      (l.foldl (fun a p => if p ∈ a then a else a ++ [p]) acc).Nodup := by
  intro l
  induction l with
  | nil => intro acc h; exact h
  | cons p t ih =>
    intro acc h
    simp only [List.foldl_cons]
    by_cases hp : p ∈ acc
    · rw [if_pos hp]
      exact ih acc h
    · rw [if_neg hp]
      refine ih _ ?_
      simp [List.nodup_append, h, hp]

theorem pyDedup_foldl_mem :
    ∀ (l acc : List Nat) (x : Nat),
      x ∈ l.foldl (fun a p => if p ∈ a then a else a ++ [p]) acc ↔ x ∈ acc ∨ x ∈ l := by
  intro l
  induction l with
  | nil => intro acc x; simp
  | cons p t ih =>
    intro acc x
    simp only [List.foldl_cons]
    by_cases hp : p ∈ acc
    · rw [if_pos hp, ih]
      constructor
      · rintro (h | h)
        · exact Or.inl h
        · exact Or.inr (List.mem_cons_of_mem _ h)
      · rintro (h | h)
        · exact Or.inl h
        · rcases List.mem_cons.mp h with rfl | h'
          · exact Or.inl hp
          · exact Or.inr h'
    · rw [if_neg hp, ih]
      simp only [List.mem_append, List.mem_singleton, List.mem_cons]
      tauto

theorem pyDedup_nodup (l : List Nat) : (pyDedup l).Nodup :=
  pyDedup_foldl_nodup l [] List.nodup_nil

theorem pyDedup_mem (l : List Nat) (x : Nat) : x ∈ pyDedup l ↔ x ∈ l := by
  rw [pyDedup, pyDedup_foldl_mem]
  simp

theorem nodup_subset_dedup_length :
    ∀ (l l' : List Nat), l.Nodup → (∀ x, x ∈ l → x ∈ l') →
      l.length ≤ l'.dedup.length := by
  intro l l' hnd hsub
  have h1 : l.toFinset.card = l.length := List.toFinset_card_of_nodup hnd
  have h2 : l.toFinset ⊆ l'.toFinset := by
    intro x hx
    rw [List.mem_toFinset] at hx ⊢
    exact hsub x hx
  have h3 : l'.toFinset.card = l'.dedup.length := List.card_toFinset l'
  calc l.length = l.toFinset.card := h1.symm
    _ ≤ l'.toFinset.card := Finset.card_le_card h2
    _ = l'.dedup.length := h3

theorem fallbackCandidates_sub_all (cfg : PlacesConfig) (r : Reservation)
    (hp : r.place_id = none) :
    ∀ x, x ∈ fallbackCandidates cfg r → x ∈ all_possible_places cfg := by
  intro x hx
  unfold fallbackCandidates at hx
  rw [pyDedup_mem] at hx
  simp only [hp, Option.isSome_none, Bool.and_false, Bool.false_eq_true, if_false] at hx
  by_cases hn : r.needPc.getD true = true
  · simp only [hn, if_true] at hx
    split at hx
    · exact List.mem_of_mem_filter hx
    · have h1 : x ∈ cfg.coworking_pc_desks := List.mem_of_mem_filter hx
      simp only [all_possible_places, List.mem_append]
      exact Or.inl (Or.inl h1)
  · simp only [if_neg hn] at hx
    split at hx
    · exact List.mem_of_mem_filter hx
    · have h1 : x ∈ cfg.lower_floor_desks ++ room_ids cfg ++ cfg.coworking_pc_desks :=
        List.mem_of_mem_filter hx
      simp only [List.mem_append] at h1
      simp only [all_possible_places, List.mem_append]
      tauto

theorem fallbackCandidates_length (cfg : PlacesConfig) (r : Reservation) :
    (fallbackCandidates cfg r).length ≤ 1 + (all_possible_places cfg).dedup.length := by
  cases hp : r.place_id with
  | some p =>
    rw [fallbackCandidates_collapse cfg r p hp]
    simp
  | none =>
    have hnd : (fallbackCandidates cfg r).Nodup := pyDedup_nodup _
    have hle := nodup_subset_dedup_length (fallbackCandidates cfg r) (all_possible_places cfg)
      hnd (fallbackCandidates_sub_all cfg r hp)
    omega

theorem fallbackStepCount_le (resv : List Reservation) (cfg : PlacesConfig)
    (shufC : Nat → List Nat → List Nat) (sched : AssignMap) (i : Nat)
    (hC : ∀ j l, (shufC j l).Perm l) :
    fallbackStepCount resv cfg shufC sched i
      ≤ 1 + (all_possible_places cfg).dedup.length := by
  unfold fallbackStepCount
  cases hres : resById resv i with
  | none => exact Nat.zero_le _
  | some r =>
    show scanChecks sched (parse_time_slot r.day r.start_time)
        (parse_time_slot r.day r.end_time) (shufC i (fallbackCandidates cfg r)) ≤ _
    have h1 := scanChecks_le sched (parse_time_slot r.day r.start_time)
      (parse_time_slot r.day r.end_time) (shufC i (fallbackCandidates cfg r))
    have h2 : (shufC i (fallbackCandidates cfg r)).length = (fallbackCandidates cfg r).length :=
      (hC i _).length_eq
    have h3 := fallbackCandidates_length cfg r
    omega

theorem fallbackFoldCount_le :
    ∀ (L : List Nat) (resv : List Reservation) (cfg : PlacesConfig)
      (shufC : Nat → List Nat → List Nat) (sched : AssignMap),
      (∀ j l, (shufC j l).Perm l) →
      fallbackFoldCount resv cfg shufC L sched
        ≤ L.length * (1 + (all_possible_places cfg).dedup.length) := by
  intro L
  induction L with
  | nil => intro resv cfg shufC sched _; simp [fallbackFoldCount]
  | cons i t ih =>
    intro resv cfg shufC sched hC
    have h1 := fallbackStepCount_le resv cfg shufC sched i hC
    have h2 := ih resv cfg shufC (fallbackStep resv cfg shufC sched i) hC
    simp only [fallbackFoldCount, List.length_cons]
    rw [Nat.succ_mul]
    omega

/-- Claim C9: in this embedding every engine function is total by
construction (the CSP library's backtracking over finite domains is a total
solver function), and the fallback pass is a bounded, non-backtracking
single left fold: each processed reservation's candidate list is scanned at
most once, for at most `1 + |distinct places|` availability checks each and
at most `|order| * (1 + |distinct places|)` in total; reservations outside
the processed order are never revisited or reassigned; and the processed
order contains at most one entry per input reservation. -/
theorem C9_fallback_terminates_bounded :
    ∀ (resv : List Reservation) (cfg : PlacesConfig) (shufI : List Nat → List Nat)
      (shufC : Nat → List Nat → List Nat) (L : List Nat) (sched : AssignMap),
      (∀ l, (shufI l).Perm l) → (∀ j l, (shufC j l).Perm l) →
      (fallbackFoldCount resv cfg shufC L sched
        ≤ L.length * (1 + (all_possible_places cfg).dedup.length)) ∧
      (∀ i, ¬ i ∈ L →
        dlookup (fallbackFold resv cfg shufC L sched) i = dlookup sched i) ∧
      (shufI ((initialPendingIds resv).filter (fun j => !(dcontains sched j)))).length
        ≤ resv.length := by
  intro resv cfg shufI shufC L sched hI hC
  refine ⟨fallbackFoldCount_le L resv cfg shufC sched hC,
    fun i hni => fallbackFold_preserve L resv cfg shufC sched i hni, ?_⟩
  rw [(hI _).length_eq]
  calc ((initialPendingIds resv).filter (fun j => !(dcontains sched j))).length
      ≤ (initialPendingIds resv).length := List.length_filter_le _ _
    _ ≤ resv.length := by
        simp only [initialPendingIds, List.length_map]
        exact List.length_filter_le _ _

theorem C9_fallback_terminates_bounded_witness :
    (fallbackFoldCount resvC3b cfg0 (fun _ l => l) [1] []
        ≤ [1].length * (1 + (all_possible_places cfg0).dedup.length)) ∧
    dlookup (fallbackFold resvC3b cfg0 (fun _ l => l) [1] []) 2
      = dlookup ([] : AssignMap) 2 ∧
    (id ((initialPendingIds resvC3b).filter
        (fun j => !(dcontains ([] : AssignMap) j)))).length ≤ resvC3b.length := by
  have h := C9_fallback_terminates_bounded resvC3b cfg0 id (fun _ l => l) [1] []
    (fun l => List.Perm.refl l) (fun j l => List.Perm.refl l)
  exact ⟨h.1, h.2.1 2 (by decide), h.2.2⟩
